import Mathlib

/- Verification development for the trace-origin engine (src/trace_origin.ts).

   The engine is embedded shallowly.  The semantic host (ts-morph in the source)
   is abstracted as an environment `Env` of query functions over node and symbol
   identities (natural numbers); host queries that can raise are modelled as
   `Except Unit` values.  The engine's own code is transcribed function by
   function:

   - `getTargetNodeForResolution`  (src/trace_origin.ts lines 146-175)
   - `getOriginalSymbol`           (src/trace_origin.ts lines 66-119)
   - `resolvePropertySymbol`       (src/trace_origin.ts lines 124-140)
   - `traceOrigin`                 (src/trace_origin.ts lines 18-60)

   The mutual recursion getOriginalSymbol <-> resolvePropertySymbol is unbounded
   in the source (each nested walker gets a fresh 30-step loop budget), so the
   embedding threads an explicit recursion-depth fuel `depth`; the extra result
   `Res.oof` marks a computation that exhausts this fuel (a stack overflow in a
   real runtime, which the orchestrator's blanket catch would swallow just like
   any other thrown fault).  `Res.exn` models a fault thrown by a host query.

   Node's path.dirname / path.relative (imported by the source from "path") are
   modelled for already-normalized absolute POSIX inputs, which is the form the
   host hands back for file paths. -/

/-- Syntactic kinds of nodes that the engine inspects (ts-morph SyntaxKind);
every kind the code does not test for is collapsed into `other`. -/
inductive SKind where
  | identifier : SKind
  | propertyAccessExpression : SKind
  | variableDeclaration : SKind
  | other : SKind
deriving DecidableEq

/-- Result of running a piece of engine code: a value, a fault thrown by a host
query (`exn`), or exhaustion of the recursion fuel (`oof`), the embedding's
rendering of the unbounded walker/resolver mutual recursion blowing the stack. -/
inductive Res (α : Type) where
  | ok : α → Res α
  | exn : Res α
  | oof : Res α
deriving DecidableEq

/-- The semantic host's query surface (spec section 6), as consumed by
src/trace_origin.ts.  Nodes and symbols are identified by naturals.  Structural
queries (kind, parent, child operands, descendants, initializers) are total;
semantic queries may raise, modelled by `Except Unit`. -/
structure Env where
  nodeKind : Nat → SKind
  parent : Nat → Option Nat
  paExpression : Nat → Nat
  paName : Nat → String
  firstDescendantIdentifier : Nat → Option Nat
  getSymbol : Nat → Except Unit (Option Nat)
  isAlias : Nat → Except Unit Bool
  getAliasedSymbol : Nat → Except Unit (Option Nat)
  getDeclarations : Nat → Except Unit (List Nat)
  getInitializer : Nat → Option Nat
  typeGetProperty : Nat → String → Except Unit (Option Nat)
  sourceFilePath : Nat → Except Unit String

/-- Options of `traceOrigin` (src/trace_origin.ts lines 5-11); an omitted
options object is the same as `relative := false`. -/
structure TraceOriginOptions where
  relative : Bool := false

/-- Boolean string prefix test, first-characters form of `s.startsWith(pre)`. -/
def strStartsWith (s pre : String) : Bool :=
  List.isPrefixOf pre.data s.data

/-- Split a character list at every slash (model of splitting a POSIX path). -/
def splitOnSlash : List Char → List Char → List (List Char)
  | [], acc => [acc.reverse]
  | c :: rest, acc =>
    if c = '/' then acc.reverse :: splitOnSlash rest []
    else splitOnSlash rest (c :: acc)

/-- Segments of a path, empty segments dropped. -/
def splitPath (p : String) : List String :=
  ((splitOnSlash p.data []).map (fun cs => String.mk cs)).filter (fun seg => seg ≠ "")

/-- Join path segments with slashes. -/
def joinSegs : List String → String
  | [] => ""
  | [s] => s
  | s :: rest => s ++ ("/") ++ joinSegs rest

/-- Whether a path is absolute (leading slash). -/
def isAbsolutePath (p : String) : Bool :=
  strStartsWith p ("/")

/-- Model of Node's path.dirname for normalized POSIX paths. -/
def dirname (p : String) : String :=
  if isAbsolutePath p then ("/") ++ joinSegs (splitPath p).dropLast
  else
    match (splitPath p).dropLast with
    | [] => "."
    | seg :: rest => joinSegs (seg :: rest)

/-- Length of the common prefix of two segment lists. -/
def commonLen : List String → List String → Nat
  | a :: as, b :: bs => if a = b then commonLen as bs + 1 else 0
  | _, _ => 0

/-- Model of Node's path.relative for normalized absolute POSIX inputs: drop
the common segment prefix, ascend with ".." for what remains of `fromDir`,
then descend into what remains of `toPath`. -/
def relative (fromDir toPath : String) : String :=
  let f := splitPath fromDir
  let t := splitPath toPath
  let c := commonLen f t
  joinSegs (List.replicate (f.length - c) ("..") ++ t.drop c)

/-- The relative-path normalization of traceOrigin (src/trace_origin.ts lines
47-50): prepend "./" unless the computed path already starts with a dot. -/
def normalizeRelativePath (relativePath : String) : String :=
  if strStartsWith relativePath (".") then relativePath
  else ("./") ++ relativePath

/-- resolvePropertySymbol (src/trace_origin.ts lines 124-140), parameterized by
`hook`, the recursive entry into the Symbol Origin Walker.  The `visited`
parameter mirrors the source signature; exactly as in the source, the body
never reads it. -/
def resolvePropertySymbolAux (env : Env) (hook : Nat → Res (Option Nat))
    (symbol : Nat) (propertyName : String) (visited : List Nat) : Res (Option Nat) :=
  match env.getDeclarations symbol with
  | Except.error _ => Res.exn
  | Except.ok declarations =>
    match declarations.head? with
    | none => Res.ok none
    | some declaration =>
      match env.typeGetProperty declaration propertyName with
      | Except.error _ => Res.exn
      | Except.ok none => Res.ok none
      | Except.ok (some prop) =>
        match env.getDeclarations prop with
        | Except.error _ => Res.exn
        | Except.ok decls =>
          match decls.head? with
          | none => Res.ok none
          | some d => hook d

/-- The fixed-point loop of getOriginalSymbol (src/trace_origin.ts lines 70-116),
parameterized by `rps`, the property resolver (symbol, property name, visited).
`remaining` is the loop's step budget (30 at entry, `for i = 0; i < 30`);
`current`/`symbol`/`visited` are the loop variables. -/
def walkLoopAux (env : Env) (rps : Nat → String → List Nat → Res (Option Nat)) :
    Nat → Nat → Option Nat → List Nat → Res (Option Nat)
  | 0, _, symbol, _ => Res.ok symbol
  | rem + 1, current, symbol, visited =>
    match symbol with
    | none => Res.ok none
    | some s =>
      if s ∈ visited then Res.ok (some s)
      else
        let visited' := s :: visited
        let propAttempt : Res (Option Nat) :=
          match env.parent current with
          | some p =>
            if env.nodeKind p = SKind.propertyAccessExpression ∧ env.paExpression p = current then
              rps s (env.paName p) visited'
            else Res.ok none
          | none => Res.ok none
        match propAttempt with
        | Res.exn => Res.exn
        | Res.oof => Res.oof
        | Res.ok (some resolvedSymbol) =>
          match env.getDeclarations resolvedSymbol with
          | Except.error _ => Res.exn
          | Except.ok decls =>
            walkLoopAux env rps rem (decls.headD current) (some resolvedSymbol) visited'
        | Res.ok none =>
          match env.isAlias s with
          | Except.error _ => Res.exn
          | Except.ok ia =>
            match (if ia then env.getAliasedSymbol s else Except.ok none) with
            | Except.error _ => Res.exn
            | Except.ok (some aliasedSymbol) =>
              match env.getDeclarations aliasedSymbol with
              | Except.error _ => Res.exn
              | Except.ok decls =>
                walkLoopAux env rps rem (decls.headD current) (some aliasedSymbol) visited'
            | Except.ok none =>
              match env.getDeclarations s with
              | Except.error _ => Res.exn
              | Except.ok declarations =>
                match declarations.head? with
                | none => Res.ok (some s)
                | some declaration =>
                  if env.nodeKind declaration = SKind.variableDeclaration then
                    match env.getInitializer declaration with
                    | none => Res.ok (some s)
                    | some initializer =>
                      match env.getSymbol initializer with
                      | Except.error _ => Res.exn
                      | Except.ok none => Res.ok (some s)
                      | Except.ok (some initializerSymbol) =>
                        walkLoopAux env rps rem initializer (some initializerSymbol) visited'
                  else Res.ok (some s)

/-- Body of getOriginalSymbol (src/trace_origin.ts lines 66-119): bind the
node's symbol, then run the loop with a fresh step budget of 30 and a fresh
empty visited set.  `hook` is the recursion used when the property resolver
re-enters the walker. -/
def walkBody (env : Env) (hook : Nat → Res (Option Nat)) (node : Nat) : Res (Option Nat) :=
  match env.getSymbol node with
  | Except.error _ => Res.exn
  | Except.ok symbol =>
    walkLoopAux env (resolvePropertySymbolAux env hook) 30 node symbol []

/-- getOriginalSymbol (src/trace_origin.ts lines 66-119) with explicit recursion
fuel `depth` spent only when resolvePropertySymbol re-enters the walker; the
source spends no such fuel, i.e. its nested walkers recurse without bound. -/
def getOriginalSymbol (env : Env) : Nat → Nat → Res (Option Nat)
  | 0 => walkBody env (fun _ => Res.oof)
  | depth + 1 => walkBody env (getOriginalSymbol env depth)

/-- The walker entry used by the property resolver at a given fuel level. -/
def walkerHook (env : Env) : Nat → Nat → Res (Option Nat)
  | 0 => fun _ => Res.oof
  | depth + 1 => getOriginalSymbol env depth

/-- resolvePropertySymbol (src/trace_origin.ts lines 124-140) at fuel `depth`. -/
def resolvePropertySymbol (env : Env) (depth : Nat) (symbol : Nat)
    (propertyName : String) (visited : List Nat) : Res (Option Nat) :=
  resolvePropertySymbolAux env (walkerHook env depth) symbol propertyName visited

/-- The walker loop at fuel `depth`, as iterated inside getOriginalSymbol. -/
def walkLoop (env : Env) (depth rem current : Nat) (symbol : Option Nat)
    (visited : List Nat) : Res (Option Nat) :=
  walkLoopAux env (resolvePropertySymbolAux env (walkerHook env depth)) rem current symbol visited

/-- Trailing fallback of getTargetNodeForResolution (src/trace_origin.ts lines
167-174): identifiers resolve as-is, otherwise the first identifier descendant,
otherwise the node itself. -/
def findIdentifierTarget (env : Env) (node : Nat) : Option Nat :=
  if env.nodeKind node = SKind.identifier then some node
  else
    match env.firstDescendantIdentifier node with
    | some identifier => some identifier
    | none => some node

/-- getTargetNodeForResolution (src/trace_origin.ts lines 146-175). -/
def getTargetNodeForResolution (env : Env) (node : Nat) : Option Nat :=
  if env.nodeKind node = SKind.propertyAccessExpression then
    some (env.paExpression node)
  else
    match env.parent node with
    | some parent =>
      if env.nodeKind parent = SKind.propertyAccessExpression then
        if env.paExpression parent = node then some node
        else some (env.paExpression parent)
      else findIdentifierTarget env node
    | none => findIdentifierTarget env node

/-- The pipeline of traceOrigin after target selection (src/trace_origin.ts
lines 25-55): walk to the terminal symbol, take its first declaration, read its
file path, and format it absolutely or relative to the target node's file. -/
def traceAfterTarget (env : Env) (depth : Nat) (targetNode : Nat)
    (options : TraceOriginOptions) : Res (Option String) :=
  match getOriginalSymbol env depth targetNode with
  | Res.exn => Res.exn
  | Res.oof => Res.oof
  | Res.ok none => Res.ok none
  | Res.ok (some symbol) =>
    match env.getDeclarations symbol with
    | Except.error _ => Res.exn
    | Except.ok declarations =>
      match declarations.head? with
      | none => Res.ok none
      | some originalDeclaration =>
        match env.sourceFilePath originalDeclaration with
        | Except.error _ => Res.exn
        | Except.ok originalFilePath =>
          if options.relative then
            match env.sourceFilePath targetNode with
            | Except.error _ => Res.exn
            | Except.ok currentFilePath =>
              Res.ok (some (normalizeRelativePath
                (relative (dirname currentFilePath) originalFilePath)))
          else Res.ok (some originalFilePath)

/-- The try-block of traceOrigin (src/trace_origin.ts lines 19-55). -/
def traceOriginBody (env : Env) (depth : Nat) (node : Nat)
    (options : TraceOriginOptions) : Res (Option String) :=
  match getTargetNodeForResolution env node with
  | none => Res.ok none
  | some targetNode => traceAfterTarget env depth targetNode options

/-- traceOrigin (src/trace_origin.ts lines 18-60).  The catch-block converts
every fault raised during the trace into the absence result `none`; exhaustion
of the recursion fuel (a stack overflow at runtime) lands in the same catch. -/
def traceOrigin (env : Env) (depth : Nat) (node : Nat)
    (options : TraceOriginOptions) : Option String :=
  match traceOriginBody env depth node options with
  | Res.ok r => r
  | Res.exn => none
  | Res.oof => none

/-- The walker diverges on a node: no recursion fuel is enough. -/
def walkerDiverges (env : Env) (node : Nat) : Prop :=
  ∀ depth, getOriginalSymbol env depth node = Res.oof

/-- Rule c of the walker yields nothing for symbol `s` at `current`: the node
is not the object operand of a dotted access, or the property resolution
returns absence. -/
def propRuleFails (env : Env) (depth current s : Nat) (visited' : List Nat) : Prop :=
  env.parent current = none ∨
  (∃ p, env.parent current = some p ∧
    ¬(env.nodeKind p = SKind.propertyAccessExpression ∧ env.paExpression p = current)) ∨
  (∃ p, env.parent current = some p ∧
    env.nodeKind p = SKind.propertyAccessExpression ∧ env.paExpression p = current ∧
    resolvePropertySymbol env depth s (env.paName p) visited' = Res.ok none)

/-- Rule d of the walker yields nothing for symbol `s`: not an alias, or an
alias whose aliased symbol is absent. -/
def aliasRuleFails (env : Env) (s : Nat) : Prop :=
  env.isAlias s = Except.ok false ∨
  (env.isAlias s = Except.ok true ∧ env.getAliasedSymbol s = Except.ok none)

/-- A node has no dotted-access parent. -/
def noPAParent (env : Env) (node : Nat) : Prop :=
  env.parent node = none ∨
  ∃ p, env.parent node = some p ∧ env.nodeKind p ≠ SKind.propertyAccessExpression

/-- Host on which every semantic query raises. -/
def envErr : Env where
  nodeKind := fun _ => SKind.identifier
  parent := fun _ => none
  paExpression := fun _ => 0
  paName := fun _ => ""
  firstDescendantIdentifier := fun _ => none
  getSymbol := fun _ => Except.error ()
  isAlias := fun _ => Except.error ()
  getAliasedSymbol := fun _ => Except.error ()
  getDeclarations := fun _ => Except.error ()
  getInitializer := fun _ => none
  typeGetProperty := fun _ _ => Except.error ()
  sourceFilePath := fun _ => Except.error ()

/-- Host with one identifier node 0 bound to symbol 0, declared at node 1 in
file "/root/.hidden.ts", referenced from file "/root/index.ts". -/
def env7 : Env where
  nodeKind := fun n => if n = 0 then SKind.identifier else SKind.other
  parent := fun _ => none
  paExpression := fun _ => 0
  paName := fun _ => ""
  firstDescendantIdentifier := fun _ => none
  getSymbol := fun n => if n = 0 then Except.ok (some 0) else Except.error ()
  isAlias := fun s => if s = 0 then Except.ok false else Except.error ()
  getAliasedSymbol := fun _ => Except.ok none
  getDeclarations := fun s => if s = 0 then Except.ok [1] else Except.error ()
  getInitializer := fun _ => none
  typeGetProperty := fun _ _ => Except.ok none
  sourceFilePath := fun n =>
    if n = 0 then Except.ok ("/root/index.ts") else Except.ok ("/root/.hidden.ts")

/-- Host where identifier node 0 under dotted access node 1 (property "m")
binds symbol 0, whose declaration node 2 has structural type contributing "m"
through property symbol 4; symbol 4's declaration node 5 binds symbol 3, a
terminal definition with declaration node 6. -/
def env5 : Env where
  nodeKind := fun n =>
    if n = 1 then SKind.propertyAccessExpression
    else if n = 0 then SKind.identifier else SKind.other
  parent := fun n => if n = 0 then some 1 else none
  paExpression := fun _ => 0
  paName := fun _ => "m"
  firstDescendantIdentifier := fun _ => none
  getSymbol := fun n =>
    if n = 0 then Except.ok (some 0)
    else if n = 5 then Except.ok (some 3) else Except.error ()
  isAlias := fun _ => Except.ok false
  getAliasedSymbol := fun _ => Except.ok none
  getDeclarations := fun s =>
    if s = 0 then Except.ok [2]
    else if s = 4 then Except.ok [5]
    else if s = 3 then Except.ok [6] else Except.error ()
  getInitializer := fun _ => none
  typeGetProperty := fun d name =>
    if d = 2 ∧ name = "m" then Except.ok (some 4) else Except.ok none
  sourceFilePath := fun _ => Except.error ()

/-- Host on which the walker's property-resolution recursion never bottoms out:
node 0 is the object operand of dotted access node 1 asking for property "x";
symbol 0's declaration node 0 contributes "x" through property symbol 0, whose
first declaration is node 0 again, so every nested walker immediately starts
another nested walker. -/
def envCyc : Env where
  nodeKind := fun n => if n = 1 then SKind.propertyAccessExpression else SKind.other
  parent := fun n => if n = 0 then some 1 else none
  paExpression := fun _ => 0
  paName := fun _ => "x"
  firstDescendantIdentifier := fun _ => none
  getSymbol := fun n => if n = 0 then Except.ok (some 0) else Except.error ()
  isAlias := fun _ => Except.ok false
  getAliasedSymbol := fun _ => Except.ok none
  getDeclarations := fun s => if s = 0 then Except.ok [0] else Except.error ()
  getInitializer := fun _ => none
  typeGetProperty := fun d name =>
    if d = 0 ∧ name = "x" then Except.ok (some 0) else Except.ok none
  sourceFilePath := fun _ => Except.error ()

/-- The value of every walk on envCyc: fuel exhaustion on node 0, a host fault
everywhere else (no other node has a binding). -/
def badFun : Nat → Res (Option Nat) :=
  fun n => if n = 0 then Res.oof else Res.exn

theorem findIdentifierTarget_some (env : Env) (node : Nat) :
    ∃ t, findIdentifierTarget env node = some t := by
  by_cases h : env.nodeKind node = SKind.identifier
  · exact ⟨node, by simp [findIdentifierTarget, h]⟩
  · cases hd : env.firstDescendantIdentifier node with
    | none => exact ⟨node, by simp [findIdentifierTarget, h, hd]⟩
    | some i => exact ⟨i, by simp [findIdentifierTarget, h, hd]⟩

theorem targetSome (env : Env) (node : Nat) :
    ∃ t, getTargetNodeForResolution env node = some t := by
  by_cases h1 : env.nodeKind node = SKind.propertyAccessExpression
  · exact ⟨env.paExpression node, by simp [getTargetNodeForResolution, h1]⟩
  · cases hp : env.parent node with
    | none =>
      obtain ⟨t, ht⟩ := findIdentifierTarget_some env node
      exact ⟨t, by simp [getTargetNodeForResolution, h1, hp, ht]⟩
    | some parent =>
      by_cases h3 : env.nodeKind parent = SKind.propertyAccessExpression
      · by_cases h4 : env.paExpression parent = node
        · exact ⟨node, by simp [getTargetNodeForResolution, h1, hp, h3, h4]⟩
        · exact ⟨env.paExpression parent, by simp [getTargetNodeForResolution, h1, hp, h3, h4]⟩
      · obtain ⟨t, ht⟩ := findIdentifierTarget_some env node
        exact ⟨t, by simp [getTargetNodeForResolution, h1, hp, h3, ht]⟩

theorem getOriginalSymbol_as_walkBody (env : Env) (depth : Nat) :
    getOriginalSymbol env depth = walkBody env (walkerHook env depth) := by
  cases depth <;> rfl

/-- C2: in the Symbol Origin Walker loop, whenever the current symbol is absent
or already belongs to the visited set, the loop stops at once and returns the
current symbol unchanged (the last symbol adopted by a rule, i.e. the last good
symbol) — in particular on a cycle it returns that symbol rather than an error. -/
theorem walkLoop_stops_on_absent_or_visited :
    ∀ (env : Env) (depth rem current : Nat) (symbol : Option Nat) (visited : List Nat),
      (symbol = none ∨ ∃ s, symbol = some s ∧ s ∈ visited) →
      walkLoop env depth (rem + 1) current symbol visited = Res.ok symbol := by
  intro env depth rem current symbol visited h
  rcases h with h | ⟨s, rfl, hs⟩
  · subst h; rfl
  · simp only [walkLoop, walkLoopAux]
    rw [if_pos hs]

theorem walkLoop_stops_on_absent_or_visited_witness :
    walkLoop envErr 1 3 0 (some 7) [7] = Res.ok (some 7) :=
  walkLoop_stops_on_absent_or_visited envErr 1 2 0 (some 7) [7]
    (Or.inr ⟨7, rfl, by decide⟩)

theorem gosEnvCyc (d : Nat) : getOriginalSymbol envCyc d = badFun := by
  induction d with
  | zero =>
    funext n
    cases n with
    | zero => decide
    | succ m => rfl
  | succ m ih =>
    show walkBody envCyc (getOriginalSymbol envCyc m) = badFun
    rw [ih]
    funext n
    cases n with
    | zero => decide
    | succ k => rfl

/-- C3 counterexample: the mutual recursion between the walker and the property
resolver is not bounded by the walker's 30-step budget.  On the host `envCyc`,
whose property resolution leads straight back into a fresh walker on the same
node, the walk of node 0 exhausts every recursion fuel: no finite recursion
allowance completes it, i.e. the source recursion is unbounded. -/
theorem getOriginalSymbol_unbounded_recursion : walkerDiverges envCyc 0 := by
  intro depth
  rw [gosEnvCyc depth]
  decide

/-- C3 amended: each walker invocation's own loop is capped at 30 iterations
(the loop starts with budget 30, and an exhausted budget stops the loop,
returning the current symbol); the cap does not carry into the fresh walkers
started by property resolution. -/
theorem walkLoop_budget_caps_iterations :
    (∀ (env : Env) (depth node : Nat),
        getOriginalSymbol env depth node =
          match env.getSymbol node with
          | Except.error _ => Res.exn
          | Except.ok symbol => walkLoop env depth 30 node symbol []) ∧
    (∀ (env : Env) (depth current : Nat) (symbol : Option Nat) (visited : List Nat),
        walkLoop env depth 0 current symbol visited = Res.ok symbol) := by
  constructor
  · intro env depth node
    rw [getOriginalSymbol_as_walkBody]
    rfl
  · intro env depth current symbol visited
    rfl

/-- C4: the `visited` parameter handed to the Composite Property Resolver is
never consulted — the resolver's result is identical for any two visited sets,
so the per-trace "no symbol expanded twice" invariant does not extend through
its recursive re-entry into the Walker (the nested walker starts from a fresh,
empty visited set). -/
theorem resolvePropertySymbol_ignores_visited :
    ∀ (env : Env) (depth s : Nat) (propertyName : String) (v1 v2 : List Nat),
      resolvePropertySymbol env depth s propertyName v1 =
        resolvePropertySymbol env depth s propertyName v2 :=
  fun _ _ _ _ _ _ => rfl

/-- C9: traceOrigin is a pure function of the host program model, the node, the
options and the recursion fuel; the transient visited set is created afresh
inside each call and no state survives a call, so two calls on the same node
with the same options over the same host yield the same result. -/
theorem traceOrigin_deterministic :
    ∀ (env : Env) (depth node : Nat) (options : TraceOriginOptions),
      traceOrigin env depth node options = traceOrigin env depth node options :=
  fun _ _ _ _ => rfl

/-- C5: an iteration of the Symbol Origin Walker applies its rules in the fixed
order c (composite-property resolution, attempted whenever the current node is
the object operand of a dotted access), then d (alias-following, only when rule
c yielded nothing), then e (variable-initializer following, only when the
symbol is not an alias or its aliased symbol is absent); a successful rule
adopts the new symbol, updates the current node, and continues the loop. -/
theorem walkLoop_rule_order :
    ∀ (env : Env) (depth rem current s : Nat) (visited : List Nat),
      s ∉ visited →
      ((∀ p resolvedSymbol ds,
          env.parent current = some p →
          env.nodeKind p = SKind.propertyAccessExpression →
          env.paExpression p = current →
          resolvePropertySymbol env depth s (env.paName p) (s :: visited) =
            Res.ok (some resolvedSymbol) →
          env.getDeclarations resolvedSymbol = Except.ok ds →
          walkLoop env depth (rem + 1) current (some s) visited =
            walkLoop env depth rem (ds.headD current) (some resolvedSymbol) (s :: visited)) ∧
       (∀ aliasedSymbol ds,
          propRuleFails env depth current s (s :: visited) →
          env.isAlias s = Except.ok true →
          env.getAliasedSymbol s = Except.ok (some aliasedSymbol) →
          env.getDeclarations aliasedSymbol = Except.ok ds →
          walkLoop env depth (rem + 1) current (some s) visited =
            walkLoop env depth rem (ds.headD current) (some aliasedSymbol) (s :: visited)) ∧
       (∀ l declaration initializer initializerSymbol,
          propRuleFails env depth current s (s :: visited) →
          aliasRuleFails env s →
          env.getDeclarations s = Except.ok l →
          l.head? = some declaration →
          env.nodeKind declaration = SKind.variableDeclaration →
          env.getInitializer declaration = some initializer →
          env.getSymbol initializer = Except.ok (some initializerSymbol) →
          walkLoop env depth (rem + 1) current (some s) visited =
            walkLoop env depth rem initializer (some initializerSymbol) (s :: visited))) := by
  intro env depth rem current s visited hmem
  refine ⟨?_, ?_, ?_⟩
  · intro p resolvedSymbol ds hpar hk he hres hdecls
    simp only [resolvePropertySymbol] at hres
    simp only [walkLoop, walkLoopAux]
    rw [if_neg hmem]
    simp [hpar, hk, he, hres, hdecls]
  · intro aliasedSymbol ds hfail hia hga hdecls
    simp only [walkLoop, walkLoopAux]
    rw [if_neg hmem]
    rcases hfail with hnone | ⟨p, hp, hcond⟩ | ⟨p, hp, hk, he, hrps⟩
    · simp [hnone, hia, hga, hdecls]
    · simp [hp, hcond, hia, hga, hdecls]
    · simp only [resolvePropertySymbol] at hrps
      simp [hp, hk, he, hrps, hia, hga, hdecls]
  · intro l declaration initializer initializerSymbol hfail halias hdecls hhead hkind hinit hsym
    simp only [walkLoop, walkLoopAux]
    rw [if_neg hmem]
    rcases hfail with hnone | ⟨p, hp, hcond⟩ | ⟨p, hp, hk, he, hrps⟩ <;>
      rcases halias with hfalse | ⟨htrue, hga⟩
    · simp [hnone, hfalse, hdecls, hhead, hkind, hinit, hsym]
    · simp [hnone, htrue, hga, hdecls, hhead, hkind, hinit, hsym]
    · simp [hp, hcond, hfalse, hdecls, hhead, hkind, hinit, hsym]
    · simp [hp, hcond, htrue, hga, hdecls, hhead, hkind, hinit, hsym]
    · simp only [resolvePropertySymbol] at hrps
      simp [hp, hk, he, hrps, hfalse, hdecls, hhead, hkind, hinit, hsym]
    · simp only [resolvePropertySymbol] at hrps
      simp [hp, hk, he, hrps, htrue, hga, hdecls, hhead, hkind, hinit, hsym]

theorem walkLoop_rule_order_witness :
    walkLoop env5 1 1 0 (some 0) [] = walkLoop env5 1 0 6 (some 3) [0] :=
  (walkLoop_rule_order env5 1 0 0 0 [] (by decide)).1 1 3 [6]
    rfl rfl rfl (by decide) rfl

/-- C6: the Composite Property Resolver returns absence when the symbol has no
declarations, when the property is missing from the primary declaration's
structural type, or when the contributing property symbol has no declarations;
otherwise it returns the result of recursively invoking the Symbol Origin
Walker on the first declaration contributing the property — a failed property
lookup yields absence, never a raise. -/
theorem resolvePropertySymbol_spec :
    ∀ (env : Env) (depth s : Nat) (propertyName : String) (visited : List Nat),
      (env.getDeclarations s = Except.ok [] →
        resolvePropertySymbol env depth s propertyName visited = Res.ok none) ∧
      (∀ l d, env.getDeclarations s = Except.ok l → l.head? = some d →
        env.typeGetProperty d propertyName = Except.ok none →
        resolvePropertySymbol env depth s propertyName visited = Res.ok none) ∧
      (∀ l d prop, env.getDeclarations s = Except.ok l → l.head? = some d →
        env.typeGetProperty d propertyName = Except.ok (some prop) →
        env.getDeclarations prop = Except.ok [] →
        resolvePropertySymbol env depth s propertyName visited = Res.ok none) ∧
      (∀ l d prop l2 e dd, depth = dd + 1 →
        env.getDeclarations s = Except.ok l → l.head? = some d →
        env.typeGetProperty d propertyName = Except.ok (some prop) →
        env.getDeclarations prop = Except.ok l2 → l2.head? = some e →
        resolvePropertySymbol env depth s propertyName visited =
          getOriginalSymbol env dd e) := by
  intro env depth s propertyName visited
  refine ⟨?_, ?_, ?_, ?_⟩
  · intro h
    simp [resolvePropertySymbol, resolvePropertySymbolAux, h]
  · intro l d h1 h2 h3
    simp [resolvePropertySymbol, resolvePropertySymbolAux, h1, h2, h3]
  · intro l d prop h1 h2 h3 h4
    simp [resolvePropertySymbol, resolvePropertySymbolAux, h1, h2, h3, h4]
  · intro l d prop l2 e dd hdep h1 h2 h3 h4 h5
    subst hdep
    simp [resolvePropertySymbol, resolvePropertySymbolAux, walkerHook, h1, h2, h3, h4, h5]

theorem resolvePropertySymbol_spec_witness :
    resolvePropertySymbol env5 1 0 ("m") [] = getOriginalSymbol env5 0 5 :=
  (resolvePropertySymbol_spec env5 1 0 ("m") []).2.2.2 [2] 2 4 [5] 5 0
    rfl rfl rfl rfl rfl rfl

/-- C8: the Target Node Selector returns the object operand when the input is a
dotted-access expression; the sibling object operand when the input is the
property-name half of a dotted access; the input unchanged when it is the
object-operand half or a plain name reference; and otherwise the first
name-reference descendant, falling back to the input itself. -/
theorem getTargetNodeForResolution_cases :
    ∀ (env : Env) (node : Nat),
      (env.nodeKind node = SKind.propertyAccessExpression →
        getTargetNodeForResolution env node = some (env.paExpression node)) ∧
      (∀ p, env.nodeKind node ≠ SKind.propertyAccessExpression →
        env.parent node = some p →
        env.nodeKind p = SKind.propertyAccessExpression →
        env.paExpression p ≠ node →
        getTargetNodeForResolution env node = some (env.paExpression p)) ∧
      (∀ p, env.nodeKind node ≠ SKind.propertyAccessExpression →
        env.parent node = some p →
        env.nodeKind p = SKind.propertyAccessExpression →
        env.paExpression p = node →
        getTargetNodeForResolution env node = some node) ∧
      (env.nodeKind node = SKind.identifier →
        noPAParent env node →
        getTargetNodeForResolution env node = some node) ∧
      (env.nodeKind node ≠ SKind.propertyAccessExpression →
        env.nodeKind node ≠ SKind.identifier →
        noPAParent env node →
        getTargetNodeForResolution env node =
          some ((env.firstDescendantIdentifier node).getD node)) := by
  intro env node
  refine ⟨?_, ?_, ?_, ?_, ?_⟩
  · intro h
    simp [getTargetNodeForResolution, h]
  · intro p h1 hp h3 h4
    simp [getTargetNodeForResolution, h1, hp, h3, h4]
  · intro p h1 hp h3 h4
    simp [getTargetNodeForResolution, h1, hp, h3, h4]
  · intro hid hnp
    have h1 : env.nodeKind node ≠ SKind.propertyAccessExpression := by
      rw [hid]; decide
    rcases hnp with hp | ⟨p, hp, hkp⟩
    · simp [getTargetNodeForResolution, findIdentifierTarget, h1, hp, hid]
    · simp [getTargetNodeForResolution, findIdentifierTarget, h1, hp, hkp, hid]
  · intro h1 h2 hnp
    rcases hnp with hp | ⟨p, hp, hkp⟩ <;>
      cases hd : env.firstDescendantIdentifier node
    · simp [getTargetNodeForResolution, findIdentifierTarget, h1, h2, hp, hd]
    · simp [getTargetNodeForResolution, findIdentifierTarget, h1, h2, hp, hd]
    · simp [getTargetNodeForResolution, findIdentifierTarget, h1, h2, hp, hkp, hd]
    · simp [getTargetNodeForResolution, findIdentifierTarget, h1, h2, hp, hkp, hd]

theorem getTargetNodeForResolution_cases_witness :
    getTargetNodeForResolution env7 0 = some 0 :=
  (getTargetNodeForResolution_cases env7 0).2.2.2.1 (by decide)
    (Or.inl (by decide))

/-- C10: the Target Node Selector always selects some node (its final fallback
is the input node itself), so the absent-target guard in traceOrigin is
unreachable: the trace always proceeds past target selection. -/
theorem getTargetNodeForResolution_total :
    ∀ (env : Env) (node : Nat),
      ∃ t, getTargetNodeForResolution env node = some t ∧
        ∀ (depth : Nat) (options : TraceOriginOptions),
          traceOriginBody env depth node options = traceAfterTarget env depth t options := by
  intro env node
  obtain ⟨t, ht⟩ := targetSome env node
  exact ⟨t, ht, fun depth options => by simp [traceOriginBody, ht]⟩

theorem traceOrigin_char :
    ∀ (env : Env) (depth node : Nat) (options : TraceOriginOptions),
      traceOrigin env depth node options = none ∨
      ∃ t s ds d fp,
        getTargetNodeForResolution env node = some t ∧
        getOriginalSymbol env depth t = Res.ok (some s) ∧
        env.getDeclarations s = Except.ok ds ∧
        ds.head? = some d ∧
        env.sourceFilePath d = Except.ok fp ∧
        ((options.relative = false ∧ traceOrigin env depth node options = some fp) ∨
         (options.relative = true ∧ ∃ cfp, env.sourceFilePath t = Except.ok cfp ∧
            traceOrigin env depth node options =
              some (normalizeRelativePath (relative (dirname cfp) fp)))) := by
  intro env depth node options
  obtain ⟨t, ht⟩ := targetSome env node
  cases hg : getOriginalSymbol env depth t with
  | exn => left; simp [traceOrigin, traceOriginBody, ht, traceAfterTarget, hg]
  | oof => left; simp [traceOrigin, traceOriginBody, ht, traceAfterTarget, hg]
  | ok a =>
    cases a with
    | none => left; simp [traceOrigin, traceOriginBody, ht, traceAfterTarget, hg]
    | some s =>
      cases hd : env.getDeclarations s with
      | error u => left; simp [traceOrigin, traceOriginBody, ht, traceAfterTarget, hg, hd]
      | ok ds =>
        cases hh : ds.head? with
        | none => left; simp [traceOrigin, traceOriginBody, ht, traceAfterTarget, hg, hd, hh]
        | some d =>
          cases hf : env.sourceFilePath d with
          | error u =>
            left; simp [traceOrigin, traceOriginBody, ht, traceAfterTarget, hg, hd, hh, hf]
          | ok fp =>
            cases hrel : options.relative with
            | false =>
              right
              exact ⟨t, s, ds, d, fp, ht, hg, hd, hh, hf, Or.inl ⟨rfl, by
                simp [traceOrigin, traceOriginBody, ht, traceAfterTarget, hg, hd, hh, hf, hrel]⟩⟩
            | true =>
              cases hc : env.sourceFilePath t with
              | error u =>
                left
                simp [traceOrigin, traceOriginBody, ht, traceAfterTarget, hg, hd, hh, hf, hrel, hc]
              | ok cfp =>
                right
                exact ⟨t, s, ds, d, fp, ht, hg, hd, hh, hf, Or.inr ⟨rfl, cfp, hc, by
                  simp [traceOrigin, traceOriginBody, ht, traceAfterTarget, hg, hd, hh, hf, hrel, hc]⟩⟩

/-- C1: traceOrigin never propagates a thrown fault: a fault raised anywhere in
the pipeline is caught and becomes the absence result, and every result is
either absence or a path fully assembled from a complete successful pipeline
(selected target, terminal symbol, nonempty declarations, host-reported file
path, formatted absolutely or relatively) — never a partial or malformed path. -/
theorem traceOrigin_never_throws :
    ∀ (env : Env) (depth node : Nat) (options : TraceOriginOptions),
      (traceOriginBody env depth node options = Res.exn →
        traceOrigin env depth node options = none) ∧
      (traceOrigin env depth node options = none ∨
        ∃ t s ds d fp,
          getTargetNodeForResolution env node = some t ∧
          getOriginalSymbol env depth t = Res.ok (some s) ∧
          env.getDeclarations s = Except.ok ds ∧
          ds.head? = some d ∧
          env.sourceFilePath d = Except.ok fp ∧
          ((options.relative = false ∧ traceOrigin env depth node options = some fp) ∨
           (options.relative = true ∧ ∃ cfp, env.sourceFilePath t = Except.ok cfp ∧
              traceOrigin env depth node options =
                some (normalizeRelativePath (relative (dirname cfp) fp))))) := by
  intro env depth node options
  constructor
  · intro h
    simp [traceOrigin, h]
  · exact traceOrigin_char env depth node options

theorem traceOrigin_never_throws_witness :
    traceOrigin envErr 0 0 ⟨false⟩ = none :=
  (traceOrigin_never_throws envErr 0 0 ⟨false⟩).1 (by decide)

/-- C7 counterexample: with relative mode on, the returned path does not always
start with "./" or "../": on env7 the resolved declaration lives in the dot
file "/root/.hidden.ts" next to the referencing file, the computed relative
path ".hidden.ts" already starts with a dot, so the normalization leaves it
bare and the result starts with neither "./" nor "../". -/
theorem traceOrigin_relative_dotfile :
    traceOrigin env7 0 0 ⟨true⟩ = some (".hidden.ts") ∧
    strStartsWith (".hidden.ts") ("./") = false ∧
    strStartsWith (".hidden.ts") ("../") = false :=
  ⟨by decide, by decide, by decide⟩

/-- C7 amended: every successful result is, in absolute mode, exactly the
host-reported file path of the resolved first declaration, and, in relative
mode, exactly the path computed from the directory of the target node's file
to the resolved file, prefixed with "./" unless the computed path already
starts with a dot (so "../" ascents are kept, but a leading dot-file segment
is also left bare). -/
theorem traceOrigin_path_modes :
    ∀ (env : Env) (depth node : Nat) (options : TraceOriginOptions) (p : String),
      traceOrigin env depth node options = some p →
      ∃ t s ds d fp,
        getTargetNodeForResolution env node = some t ∧
        getOriginalSymbol env depth t = Res.ok (some s) ∧
        env.getDeclarations s = Except.ok ds ∧
        ds.head? = some d ∧
        env.sourceFilePath d = Except.ok fp ∧
        ((options.relative = false ∧ p = fp) ∨
         (options.relative = true ∧ ∃ cfp, env.sourceFilePath t = Except.ok cfp ∧
            p = normalizeRelativePath (relative (dirname cfp) fp))) := by
  intro env depth node options p hp
  rcases traceOrigin_char env depth node options with hnone |
    ⟨t, s, ds, d, fp, ht, hg, hd, hh, hf, hcase⟩
  · rw [hnone] at hp
    exact absurd hp (by simp)
  · refine ⟨t, s, ds, d, fp, ht, hg, hd, hh, hf, ?_⟩
    rcases hcase with ⟨hrel, heq⟩ | ⟨hrel, cfp, hc, heq⟩
    · exact Or.inl ⟨hrel, Option.some_injective _ (hp.symm.trans heq)⟩
    · exact Or.inr ⟨hrel, cfp, hc, Option.some_injective _ (hp.symm.trans heq)⟩

theorem traceOrigin_path_modes_witness :
    ∃ t s ds d fp,
      getTargetNodeForResolution env7 0 = some t ∧
      getOriginalSymbol env7 0 t = Res.ok (some s) ∧
      env7.getDeclarations s = Except.ok ds ∧
      ds.head? = some d ∧
      env7.sourceFilePath d = Except.ok fp ∧
      (((TraceOriginOptions.mk true).relative = false ∧ (".hidden.ts") = fp) ∨
       ((TraceOriginOptions.mk true).relative = true ∧
         ∃ cfp, env7.sourceFilePath t = Except.ok cfp ∧
           (".hidden.ts") = normalizeRelativePath (relative (dirname cfp) fp))) :=
  traceOrigin_path_modes env7 0 0 ⟨true⟩ (".hidden.ts") (by decide)
